import Mathlib

/-!
Shallow embedding of `src/app.py`: a Flask service with one endpoint
`POST /analyze` that normalizes input text, summarizes it through an LLM
client, searches for alternative sources with a bounded-retry web-search
call, and assembles a JSON response.

Outbound network effects are modelled by oracles: the LLM call outcome is a
`SummarizeOutcome`, and the search API is a function `Nat → AttemptOutcome`
giving the outcome of each successive outbound search request.
-/

namespace App

/-- Python whitespace predicate used by `str.strip()` (modelled by the
standard whitespace characters). -/
def isSpace (c : Char) : Bool := c.isWhitespace

/-- Model of `str.strip()` on the character list of a string: drop leading whitespace,
then drop trailing whitespace. -/
def stripChars (s : List Char) : List Char :=
  ((s.dropWhile isSpace).reverse.dropWhile isSpace).reverse

/-- Model of `preprocess_text(text): return text.strip()` (app.py line 43). -/
def preprocess_text (s : String) : String := String.mk (stripChars s.data)

/-- Failure of `summarize_text`: either the underlying OpenAI call raised, or
the stripped model output was empty (`ValueError("Empty summary returned by GPT.")`). -/
inductive SummarizationError
  | apiError
  | emptySummary
deriving DecidableEq

/-- Oracle for the one outbound LLM call made by `summarize_text`. -/
inductive SummarizeOutcome
  | apiFailure
  | content (s : String)

/-- Model of `summarize_text` (app.py lines 46-66): extract the model message content,
strip it, raise on empty, re-raise any API failure. -/
def summarize_text : SummarizeOutcome → Except SummarizationError String
  | .apiFailure => .error .apiError
  | .content s =>
    let summary := String.mk (stripChars s.data)
    if summary.data.isEmpty then .error .emptySummary else .ok summary

/-- One raw provider item of the Bing response (`result.get("name"/"url"/"snippet")`). -/
structure SearchItem where
  name : Option String
  url : Option String
  snippet : Option String
deriving DecidableEq

/-- One entry of the `links` list built in `search_alternative_sources`
(app.py lines 82-89). -/
structure Link where
  title : Option String
  url : Option String
  snippet : Option String
deriving DecidableEq

/-- The dict literal built per provider item (app.py lines 83-87). -/
def toLink (r : SearchItem) : Link := ⟨r.name, r.url, r.snippet⟩

/-- Python dict assignment `d[k] = v` on an insertion-ordered association
list: an existing key keeps its position and gets the new value; a fresh key
is appended. -/
def dictInsert (d : List (Option String × Link)) (k : Option String) (v : Link) :
    List (Option String × Link) :=
  if d.any (fun p => p.1 == k) then
    d.map (fun p => if p.1 == k then (k, v) else p)
  else d ++ [(k, v)]

/-- The dict comprehension `{link['url']: link for link in links}`
(app.py line 91): left-to-right insertion into an insertion-ordered dict. -/
def buildDict (links : List Link) : List (Option String × Link) :=
  links.foldl (fun d l => dictInsert d l.url l) []

/-- Model of `list(dict.values())` over `buildDict` (app.py lines 91-92). -/
def dedup_links (links : List Link) : List Link :=
  (buildDict links).map Prod.snd

/-- An exception escaping `search_alternative_sources` (anything not caught by
`except requests.RequestException`, e.g. a malformed response shape). -/
inductive SearchError
  | parseError
deriving DecidableEq

/-- Outcome of one outbound search request. -/
inductive AttemptOutcome
  | transportFailure
  | parseError
  | success (items : List SearchItem)

/-- Model of `search_alternative_sources` (app.py lines 68-96): return `[]` once
`retry_count >= SEARCH_RETRY_LIMIT`; otherwise issue one request, retrying
with `retry_count + 1` on a `requests.RequestException`, propagating any
other exception, and deduplicating the mapped result list by URL on success. -/
def search_alternative_sources (limit : Nat) (attempts : Nat → AttemptOutcome)
    (retry_count : Nat) : Except SearchError (List Link) :=
  if limit ≤ retry_count then .ok []
  else
    match attempts retry_count with
    | .transportFailure => search_alternative_sources limit attempts (retry_count + 1)
    | .parseError => .error .parseError
    | .success items => .ok (dedup_links (items.map toLink))
termination_by limit - retry_count
decreasing_by simp_wf; omega

/-- Number of outbound search requests issued by
`search_alternative_sources limit attempts retry_count`. -/
def search_requests (limit : Nat) (attempts : Nat → AttemptOutcome)
    (retry_count : Nat) : Nat :=
  if limit ≤ retry_count then 0
  else
    match attempts retry_count with
    | .transportFailure => 1 + search_requests limit attempts (retry_count + 1)
    | _ => 1
termination_by limit - retry_count
decreasing_by simp_wf; omega

/-- A parsed JSON value as Python sees it after `request.get_json()`. -/
inductive JValue
  | null
  | bool (b : Bool)
  | num (n : Int)
  | str (s : String)
  | arr (elems : List JValue)
  | obj (entries : List (String × JValue))

/-- Python truthiness, as tested by `if not data:` (app.py line 106). -/
def truthy : JValue → Bool
  | .null => false
  | .bool b => b
  | .num n => n != 0
  | .str s => !s.data.isEmpty
  | .arr xs => !xs.isEmpty
  | .obj kvs => !kvs.isEmpty

/-- A Python exception escaping to the outermost `except Exception` handler. -/
inductive PyError
  | attributeError
deriving DecidableEq

/-- Python `dict.get(k, default)` on an association list. -/
def pyDictGet (kvs : List (String × JValue)) (k : String) (dflt : JValue) : JValue :=
  match kvs.find? (fun kv => kv.1 == k) with
  | some kv => kv.2
  | none => dflt

/-- Model of `data.get(k, default)` on a dynamic value: an `AttributeError` unless
`data` is a dict. -/
def jget (data : JValue) (k : String) (dflt : JValue) : Except PyError JValue :=
  match data with
  | .obj kvs => .ok (pyDictGet kvs k dflt)
  | _ => .error .attributeError

/-- Model of `preprocess_text` applied to a dynamic value (app.py line 109): `.strip()`
raises an `AttributeError` unless the value is a string. -/
def preprocess_dyn : JValue → Except PyError String
  | .str s => .ok (preprocess_text s)
  | _ => .error .attributeError

/-- The JSON body of a response from `/analyze`. -/
inductive RespBody
  | err (msg : String)
  | payload (summary : String) (metadata : List (String × JValue))
      (alternative_sources : List Link)

/-- An HTTP response: status code and JSON body. -/
structure Response where
  status : Nat
  body : RespBody

/-- The body of `analyze_content` inside the outer `try` (app.py lines
104-139), together with the number of outbound search requests issued.
`body = none` models `request.get_json()` yielding `None`. -/
def analyze_inner (body : Option JValue) (llm : SummarizeOutcome)
    (limit : Nat) (attempts : Nat → AttemptOutcome) :
    Except PyError (Response × Nat) :=
  match body with
  | none => .ok (⟨400, .err "Invalid or missing JSON body"⟩, 0)
  | some data =>
    if !truthy data then .ok (⟨400, .err "Invalid or missing JSON body"⟩, 0)
    else
      match jget data "content" (.str "") with
      | .error e => .error e
      | .ok contentVal =>
        match preprocess_dyn contentVal with
        | .error e => .error e
        | .ok text =>
          match jget data "metadata" (.obj []) with
          | .error e => .error e
          | .ok metadataVal =>
            if text.data.isEmpty then .ok (⟨400, .err "No content provided"⟩, 0)
            else
              match summarize_text llm with
              | .error _ => .ok (⟨500, .err "Failed to summarize content"⟩, 0)
              | .ok summary =>
                let alternative_sources :=
                  match search_alternative_sources limit attempts 0 with
                  | .ok res => if res.isEmpty then [] else res
                  | .error _ => []
                let metadata :=
                  match metadataVal with
                  | .obj kvs => kvs
                  | _ => []
                .ok (⟨200, .payload summary metadata alternative_sources⟩,
                  search_requests limit attempts 0)

/-- Model of `analyze_content` (app.py lines 98-143): the inner pipeline wrapped in the
outermost `except Exception` safety net. -/
def analyze_content (body : Option JValue) (llm : SummarizeOutcome)
    (limit : Nat) (attempts : Nat → AttemptOutcome) : Response × Nat :=
  match analyze_inner body llm limit attempts with
  | .ok r => r
  | .error _ => (⟨500, .err "An unexpected error occurred"⟩, 0)

/-- The keys of the insertion-ordered dict, in order. -/
def dkeys (d : List (Option String × Link)) : List (Option String) := d.map Prod.fst

/-- The URLs of `links` in order of first occurrence, each exactly once. -/
def firstKeys : List Link → List (Option String)
  | [] => []
  | l :: ls => l.url :: (firstKeys ls).filter (fun u => !(u == l.url))

/-- The last entry of `links` carrying URL `u`. -/
def lastWith (u : Option String) (links : List Link) : Option Link :=
  (links.filter (fun l => l.url == u)).getLast?

/-! ### Lemmas about `stripChars` / `preprocess_text` -/

theorem head?_dropWhile_not (p : Char → Bool) (l : List Char) :
    ∀ c, (l.dropWhile p).head? = some c → p c = false := by
  induction l with
  | nil => intro c h; simp [List.dropWhile] at h
  | cons a t ih =>
    intro c h
    by_cases hp : p a
    · rw [List.dropWhile_cons_of_pos hp] at h; exact ih c h
    · rw [List.dropWhile_cons_of_neg hp] at h
      simp at h
      subst h
      simpa using hp

theorem dropWhile_eq_self_of_head (p : Char → Bool) (l : List Char)
    (h : ∀ c, l.head? = some c → p c = false) : l.dropWhile p = l := by
  cases l with
  | nil => rfl
  | cons a t =>
    rw [List.dropWhile_cons_of_neg]
    simp [h a rfl]

theorem stripChars_decomp (s : List Char) :
    ∃ pre post, (∀ c ∈ pre, isSpace c = true) ∧ (∀ c ∈ post, isSpace c = true) ∧
      s = pre ++ stripChars s ++ post := by
  refine ⟨s.takeWhile isSpace,
    ((s.dropWhile isSpace).reverse.takeWhile isSpace).reverse, ?_, ?_, ?_⟩
  · intro c hc; exact List.mem_takeWhile_imp hc
  · intro c hc
    rw [List.mem_reverse] at hc
    exact List.mem_takeWhile_imp hc
  · conv_lhs => rw [← List.takeWhile_append_dropWhile isSpace s]
    rw [List.append_assoc]
    congr 1
    unfold stripChars
    conv_lhs => rw [← List.reverse_reverse (s.dropWhile isSpace)]
    conv_lhs =>
      rw [← List.takeWhile_append_dropWhile isSpace (s.dropWhile isSpace).reverse]
    rw [List.reverse_append]

theorem stripChars_head (s : List Char) :
    ∀ c, (stripChars s).head? = some c → isSpace c = false := by
  intro c h
  unfold stripChars at h
  rw [List.head?_reverse] at h
  have hBne : (s.dropWhile isSpace).reverse.dropWhile isSpace ≠ [] := by
    intro hb; rw [hb] at h; simp at h
  have hlast : (s.dropWhile isSpace).reverse.getLast?
      = ((s.dropWhile isSpace).reverse.dropWhile isSpace).getLast? := by
    conv_lhs =>
      rw [← List.takeWhile_append_dropWhile isSpace (s.dropWhile isSpace).reverse]
    exact List.getLast?_append_of_ne_nil _ hBne
  rw [List.getLast?_reverse] at hlast
  exact head?_dropWhile_not isSpace s c (hlast.trans h)

theorem stripChars_getLast (s : List Char) :
    ∀ c, (stripChars s).getLast? = some c → isSpace c = false := by
  intro c h
  unfold stripChars at h
  rw [List.getLast?_reverse] at h
  exact head?_dropWhile_not isSpace (s.dropWhile isSpace).reverse c h

theorem stripChars_eq_self (s : List Char)
    (h1 : ∀ c, s.head? = some c → isSpace c = false)
    (h2 : ∀ c, s.getLast? = some c → isSpace c = false) :
    stripChars s = s := by
  unfold stripChars
  rw [dropWhile_eq_self_of_head _ _ h1]
  rw [dropWhile_eq_self_of_head _ _
    (fun c hc => h2 c (by rwa [List.head?_reverse] at hc))]
  exact List.reverse_reverse s

theorem stripChars_idem (s : List Char) : stripChars (stripChars s) = stripChars s :=
  stripChars_eq_self _ (stripChars_head s) (stripChars_getLast s)

/-- C7: `preprocess_text` always succeeds (it is a total function), removes
only leading and trailing whitespace — the input is a whitespace prefix, then
the output preserved exactly, then a whitespace suffix — is the identity on
any text with no leading or trailing whitespace, and may return empty text. -/
theorem preprocess_text_spec (s : String) :
    (∃ pre post, (∀ c ∈ pre, isSpace c = true) ∧ (∀ c ∈ post, isSpace c = true) ∧
        s.data = pre ++ (preprocess_text s).data ++ post) ∧
    ((∀ c, s.data.head? = some c → isSpace c = false) →
     (∀ c, s.data.getLast? = some c → isSpace c = false) →
     preprocess_text s = s) ∧
    (preprocess_text (String.mk [' '])).data = [] := by
  refine ⟨?_, ?_, by decide⟩
  · rcases stripChars_decomp s.data with ⟨pre, post, hpre, hpost, heq⟩
    exact ⟨pre, post, hpre, hpost, heq⟩
  · intro h1 h2
    show String.mk (stripChars s.data) = s
    rw [stripChars_eq_self s.data h1 h2]

/-- C7 witness: the theorem applied at a concrete string with no leading or
trailing whitespace, discharging both hypotheses. -/
theorem preprocess_text_spec_witness :
    preprocess_text (String.mk ['a', ' ', 'b']) = String.mk ['a', ' ', 'b'] :=
  (preprocess_text_spec (String.mk ['a', ' ', 'b'])).2.1
    (by intro c h; simp at h; subst h; decide)
    (by intro c h; simp at h; subst h; decide)

/-- C5: every summary returned by `summarize_text` is non-empty, and still
non-empty after trimming; if the model response content is empty or
whitespace-only after trimming, `summarize_text` raises `SummarizationError`
instead of returning. -/
theorem summarize_text_content (s : String) :
    summarize_text (.content s)
      = if (stripChars s.data).isEmpty then .error .emptySummary
        else .ok (String.mk (stripChars s.data)) := rfl

theorem summarize_text_spec (s : String) :
    (∀ t, summarize_text (.content s) = .ok t →
      t.data ≠ [] ∧ (preprocess_text t).data = t.data) ∧
    ((preprocess_text s).data = [] →
      summarize_text (.content s) = .error .emptySummary) := by
  constructor
  · intro t ht
    rw [summarize_text_content] at ht
    by_cases h : (stripChars s.data).isEmpty
    · rw [if_pos h] at ht; cases ht
    · rw [if_neg h] at ht
      cases ht
      refine ⟨by simpa [List.isEmpty_iff] using h, ?_⟩
      show stripChars (stripChars s.data) = stripChars s.data
      exact stripChars_idem s.data
  · intro hs
    rw [summarize_text_content]
    have : (stripChars s.data).isEmpty = true := by
      have h : stripChars s.data = [] := hs
      simp [h]
    rw [if_pos this]

/-- C5 witness: the theorem applied at a whitespace-only model response and at
a successful response. -/
theorem summarize_text_spec_witness :
    summarize_text (.content (String.mk [' ', ' '])) = .error .emptySummary ∧
    (String.mk ['h', 'i']).data ≠ [] := by
  refine ⟨(summarize_text_spec (String.mk [' ', ' '])).2 (by decide), ?_⟩
  exact ((summarize_text_spec (String.mk ['h', 'i'])).1 (String.mk ['h', 'i'])
    rfl).1

/-! ### Lemmas about the URL-keyed deduplication -/

theorem getLast?_cons_eq {α : Type} (a : α) (l : List α) :
    (a :: l).getLast? = some (l.getLast?.getD a) := by
  cases l with
  | nil => rfl
  | cons b t => rfl

theorem mem_dictInsert_elim (d : List (Option String × Link)) (k : Option String)
    (v : Link) : ∀ p ∈ dictInsert d k v, p = (k, v) ∨ p ∈ d := by
  intro p hp
  unfold dictInsert at hp
  by_cases h : (d.any (fun q => q.1 == k)) = true
  · rw [if_pos h] at hp
    rcases List.mem_map.mp hp with ⟨q, hq, he⟩
    by_cases hq1 : (q.1 == k) = true
    · rw [if_pos hq1] at he; exact Or.inl he.symm
    · rw [if_neg hq1] at he; exact Or.inr (he ▸ hq)
  · rw [if_neg h] at hp
    rcases List.mem_append.mp hp with hd | hs
    · exact Or.inr hd
    · simp only [List.mem_singleton] at hs
      exact Or.inl hs

theorem mem_dictInsert_key_eq (d : List (Option String × Link)) (k : Option String)
    (v : Link) : ∀ p ∈ dictInsert d k v, p.1 = k → p.2 = v := by
  intro p hp hk
  unfold dictInsert at hp
  by_cases h : (d.any (fun q => q.1 == k)) = true
  · rw [if_pos h] at hp
    rcases List.mem_map.mp hp with ⟨q, hq, he⟩
    by_cases hq1 : (q.1 == k) = true
    · rw [if_pos hq1] at he
      rw [← he]
    · rw [if_neg hq1] at he
      subst he
      exact absurd (by simp [hk]) hq1
  · rw [if_neg h] at hp
    rcases List.mem_append.mp hp with hd | hs
    · exact absurd (List.any_eq_true.mpr ⟨p, hd, by simp [hk]⟩) h
    · simp only [List.mem_singleton] at hs
      rw [hs]

theorem mem_dictInsert_key_ne (d : List (Option String × Link)) (k : Option String)
    (v : Link) : ∀ p ∈ dictInsert d k v, p.1 ≠ k → p ∈ d := by
  intro p hp hk
  rcases mem_dictInsert_elim d k v p hp with he | hd
  · exact absurd (by rw [he]) hk
  · exact hd

theorem dkeys_dictInsert (d : List (Option String × Link)) (k : Option String)
    (v : Link) :
    dkeys (dictInsert d k v) = if k ∈ dkeys d then dkeys d else dkeys d ++ [k] := by
  have hmem : (d.any (fun q => q.1 == k)) = true ↔ k ∈ dkeys d := by
    rw [List.any_eq_true]
    constructor
    · rintro ⟨q, hq, hqk⟩
      exact List.mem_map.mpr ⟨q, hq, by simpa using hqk⟩
    · intro hk
      rcases List.mem_map.mp hk with ⟨q, hq, hqk⟩
      exact ⟨q, hq, by simp [hqk]⟩
  unfold dictInsert
  by_cases h : (d.any (fun q => q.1 == k)) = true
  · rw [if_pos h, if_pos (hmem.mp h)]
    unfold dkeys
    rw [List.map_map]
    apply List.map_congr_left
    intro q hq
    by_cases hq1 : (q.1 == k) = true
    · simp only [Function.comp_apply]
      rw [if_pos hq1]
      exact (by simpa using hq1 : q.1 = k).symm
    · simp only [Function.comp_apply]
      rw [if_neg hq1]
  · rw [if_neg h, if_neg (fun hk => h (hmem.mpr hk))]
    unfold dkeys
    simp

theorem buildDict_snd_url (ls : List Link) :
    ∀ d, (∀ p ∈ d, p.2.url = p.1) →
      ∀ p ∈ ls.foldl (fun d l => dictInsert d l.url l) d, p.2.url = p.1 := by
  induction ls with
  | nil => intro d hd p hp; exact hd p (by simpa using hp)
  | cons l t ih =>
    intro d hd p hp
    rw [List.foldl_cons] at hp
    refine ih _ ?_ p hp
    intro q hq
    rcases mem_dictInsert_elim d l.url l q hq with he | hq'
    · rw [he]
    · exact hd q hq'

theorem dkeys_buildDict_foldl (ls : List Link) :
    ∀ d, dkeys (ls.foldl (fun d l => dictInsert d l.url l) d)
      = dkeys d ++ (firstKeys ls).filter (fun u => decide (u ∉ dkeys d)) := by
  induction ls with
  | nil => intro d; simp [firstKeys]
  | cons l t ih =>
    intro d
    rw [List.foldl_cons, ih, dkeys_dictInsert]
    simp only [firstKeys, List.filter_cons]
    by_cases h : l.url ∈ dkeys d
    · rw [if_pos h]
      have hdec : (decide (l.url ∉ dkeys d)) = false := by simp [h]
      rw [hdec]
      simp only [Bool.false_eq_true, if_false]
      congr 1
      rw [List.filter_filter]
      apply List.filter_congr
      intro u hu
      by_cases hu1 : u ∈ dkeys d
      · simp [hu1]
      · have hne : u ≠ l.url := fun he => hu1 (he ▸ h)
        simp [hu1, hne]
    · rw [if_neg h]
      have hdec : (decide (l.url ∉ dkeys d)) = true := by simp [h]
      rw [hdec]
      simp only [if_true]
      rw [List.append_assoc, List.singleton_append]
      congr 2
      rw [List.filter_filter]
      apply List.filter_congr
      intro u hu
      by_cases hu1 : u ∈ dkeys d
      · simp [hu1]
      · by_cases hu2 : u = l.url
        · simp [hu2]
        · simp [hu1, hu2]

theorem dkeys_buildDict (ls : List Link) : dkeys (buildDict ls) = firstKeys ls := by
  unfold buildDict
  rw [dkeys_buildDict_foldl]
  simp [dkeys]

theorem dedup_links_map_url (ls : List Link) :
    (dedup_links ls).map Link.url = firstKeys ls := by
  unfold dedup_links
  rw [List.map_map]
  have h : List.map (Link.url ∘ Prod.snd) (buildDict ls)
      = List.map Prod.fst (buildDict ls) :=
    List.map_congr_left
      (fun p hp => buildDict_snd_url ls [] (by intro q hq; cases hq) p hp)
  rw [h]
  exact dkeys_buildDict ls

theorem firstKeys_nodup (ls : List Link) : (firstKeys ls).Nodup := by
  induction ls with
  | nil => simp [firstKeys]
  | cons l t ih =>
    simp only [firstKeys]
    rw [List.nodup_cons]
    refine ⟨?_, ih.filter _⟩
    intro hmem
    have := List.of_mem_filter hmem
    simp at this

theorem foldl_lastWith (ls : List Link) :
    ∀ d p, p ∈ ls.foldl (fun d l => dictInsert d l.url l) d →
      lastWith p.1 ls = some p.2 ∨ (lastWith p.1 ls = none ∧ p ∈ d) := by
  induction ls with
  | nil =>
    intro d p hp
    exact Or.inr ⟨rfl, by simpa using hp⟩
  | cons l t ih =>
    intro d p hp
    rw [List.foldl_cons] at hp
    rcases ih (dictInsert d l.url l) p hp with h1 | ⟨h1, h2⟩
    · left
      unfold lastWith at h1 ⊢
      rw [List.filter_cons]
      by_cases hl : (l.url == p.1) = true
      · rw [if_pos hl, getLast?_cons_eq, h1]
        rfl
      · rw [if_neg hl]
        exact h1
    · by_cases hk : p.1 = l.url
      · left
        have hp2 : p.2 = l := mem_dictInsert_key_eq d l.url l p h2 hk
        unfold lastWith at h1 ⊢
        rw [List.filter_cons, if_pos (by simp [hk])]
        have hf : t.filter (fun x => x.url == p.1) = [] := by
          rcases List.eq_nil_or_concat (t.filter (fun x => x.url == p.1)) with he | ⟨l2, b, he⟩
          · exact he
          · rw [he] at h1
            simp at h1
        rw [hf, hp2]
        rfl
      · right
        constructor
        · unfold lastWith at h1 ⊢
          rw [List.filter_cons, if_neg (by simp; exact fun he => hk he.symm)]
          exact h1
        · exact mem_dictInsert_key_ne d l.url l p h2 hk

theorem dedup_links_last (ls : List Link) :
    ∀ l ∈ dedup_links ls, lastWith l.url ls = some l := by
  intro l hl
  unfold dedup_links at hl
  rcases List.mem_map.mp hl with ⟨p, hp, he⟩
  have hurl : p.2.url = p.1 :=
    buildDict_snd_url ls [] (by intro q hq; cases hq) p hp
  rcases foldl_lastWith ls [] p hp with h1 | ⟨_, h2⟩
  · rw [← he, hurl]
    exact h1
  · cases h2

/-! ### Lemmas about the bounded-retry search -/

theorem search_eq (limit : Nat) (attempts : Nat → AttemptOutcome) (r : Nat) :
    search_alternative_sources limit attempts r
      = if limit ≤ r then .ok []
        else
          match attempts r with
          | .transportFailure => search_alternative_sources limit attempts (r + 1)
          | .parseError => .error .parseError
          | .success items => .ok (dedup_links (items.map toLink)) := by
  rw [search_alternative_sources]

theorem search_requests_eq (limit : Nat) (attempts : Nat → AttemptOutcome) (r : Nat) :
    search_requests limit attempts r
      = if limit ≤ r then 0
        else
          match attempts r with
          | .transportFailure => 1 + search_requests limit attempts (r + 1)
          | _ => 1 := by
  rw [search_requests]

theorem search_requests_le (limit : Nat) (attempts : Nat → AttemptOutcome) :
    ∀ n r, limit - r ≤ n → search_requests limit attempts r ≤ limit - r := by
  intro n
  induction n with
  | zero =>
    intro r hr
    rw [search_requests_eq, if_pos (by omega : limit ≤ r)]
    exact Nat.zero_le _
  | succ n ih =>
    intro r hr
    rw [search_requests_eq]
    by_cases h : limit ≤ r
    · rw [if_pos h]
      exact Nat.zero_le _
    · rw [if_neg h]
      cases hatt : attempts r with
      | transportFailure =>
        have := ih (r + 1) (by omega)
        show 1 + search_requests limit attempts (r + 1) ≤ limit - r
        omega
      | parseError =>
        show 1 ≤ limit - r
        omega
      | success items =>
        show 1 ≤ limit - r
        omega

theorem search_all_transport (limit : Nat) (attempts : Nat → AttemptOutcome)
    (hatt : ∀ i, attempts i = .transportFailure) :
    ∀ n r, limit - r ≤ n → search_alternative_sources limit attempts r = .ok [] := by
  intro n
  induction n with
  | zero => intro r hr; rw [search_eq, if_pos (by omega : limit ≤ r)]
  | succ n ih =>
    intro r hr
    rw [search_eq]
    by_cases h : limit ≤ r
    · rw [if_pos h]
    · rw [if_neg h, hatt r]
      exact ih (r + 1) (by omega)

theorem search_all_fail (limit : Nat) (attempts : Nat → AttemptOutcome)
    (hatt : ∀ i, attempts i = .transportFailure ∨ attempts i = .parseError) :
    ∀ n r, limit - r ≤ n →
      search_alternative_sources limit attempts r = .ok []
        ∨ search_alternative_sources limit attempts r = .error .parseError := by
  intro n
  induction n with
  | zero =>
    intro r hr
    rw [search_eq, if_pos (by omega : limit ≤ r)]
    exact Or.inl rfl
  | succ n ih =>
    intro r hr
    rw [search_eq]
    by_cases h : limit ≤ r
    · rw [if_pos h]; exact Or.inl rfl
    · rw [if_neg h]
      rcases hatt r with ha | ha
      · rw [ha]
        exact ih (r + 1) (by omega)
      · rw [ha]
        exact Or.inr rfl

theorem search_ok_cases (limit : Nat) (attempts : Nat → AttemptOutcome) :
    ∀ n r res, limit - r ≤ n →
      search_alternative_sources limit attempts r = .ok res →
      res = [] ∨ ∃ items : List SearchItem, res = dedup_links (items.map toLink) := by
  intro n
  induction n with
  | zero =>
    intro r res hr h
    rw [search_eq, if_pos (by omega : limit ≤ r)] at h
    cases h
    exact Or.inl rfl
  | succ n ih =>
    intro r res hr h
    rw [search_eq] at h
    by_cases hl : limit ≤ r
    · rw [if_pos hl] at h
      cases h
      exact Or.inl rfl
    · rw [if_neg hl] at h
      cases hatt : attempts r with
      | transportFailure =>
        rw [hatt] at h
        exact ih (r + 1) res (by omega) h
      | parseError => rw [hatt] at h; cases h
      | success items =>
        rw [hatt] at h
        cases h
        exact Or.inr ⟨items, rfl⟩

/-- C3: for every query oracle and every starting retry count,
`search_alternative_sources` terminates (it is a total function), issues at
most `limit` outbound search requests in total, and when the retry limit is
reached it returns `.ok []` — an empty sequence, not an error. -/
theorem search_retry_bound (limit : Nat) (attempts : Nat → AttemptOutcome) (r : Nat) :
    search_requests limit attempts r ≤ limit ∧
    search_alternative_sources limit attempts limit = .ok [] ∧
    ((∀ i, attempts i = .transportFailure) →
      search_alternative_sources limit attempts r = .ok []) := by
  refine ⟨?_, ?_, ?_⟩
  · have := search_requests_le limit attempts (limit - r) r (le_refl _)
    omega
  · rw [search_eq, if_pos (le_refl limit)]
  · intro h
    exact search_all_transport limit attempts h (limit - r) r (le_refl _)

/-- C3 witness: with the default retry limit 3 and a search API failing on all
attempts, at most 3 requests are issued and the result is the empty list. -/
theorem search_retry_bound_witness :
    search_requests 3 (fun _ => .transportFailure) 0 ≤ 3 ∧
    search_alternative_sources 3 (fun _ => .transportFailure) 0 = .ok [] :=
  ⟨(search_retry_bound 3 (fun _ => .transportFailure) 0).1,
    (search_retry_bound 3 (fun _ => .transportFailure) 0).2.2 (fun _ => rfl)⟩

/-- C1 counterexample: two provider results share the URL `u` but differ in
title; the deduplicated sequence returned on success keeps the second (last)
entry, not the first one encountered as the claim states. -/
theorem search_dedup_keeps_last_counterexample :
    search_alternative_sources 3
        (fun _ => .success [⟨some "A", some "u", none⟩, ⟨some "B", some "u", none⟩]) 0
      = .ok [⟨some "B", some "u", none⟩] ∧
    (⟨some "B", some "u", none⟩ : Link) ≠ ⟨some "A", some "u", none⟩ := by
  constructor
  · rw [search_eq]
    simp [dedup_links, buildDict, dictInsert, toLink]
  · decide

/-- C1 amended: on success the deduplicated sequence contains each URL exactly
once, in order of first occurrence in the provider's ordering, and for each
URL the entry kept is the last one encountered with that URL in the
provider's original ordering. -/
theorem search_dedup_amended (limit : Nat) (attempts : Nat → AttemptOutcome)
    (r : Nat) (items : List SearchItem)
    (hr : r < limit) (hatt : attempts r = .success items) :
    search_alternative_sources limit attempts r
        = .ok (dedup_links (items.map toLink)) ∧
    (dedup_links (items.map toLink)).map Link.url = firstKeys (items.map toLink) ∧
    (firstKeys (items.map toLink)).Nodup ∧
    ∀ l ∈ dedup_links (items.map toLink),
      lastWith l.url (items.map toLink) = some l := by
  refine ⟨?_, dedup_links_map_url _, firstKeys_nodup _, dedup_links_last _⟩
  rw [search_eq, if_neg (by omega : ¬ limit ≤ r), hatt]

/-- C1 amended witness: the theorem applied at a concrete successful attempt. -/
theorem search_dedup_amended_witness :
    search_alternative_sources 1 (fun _ => .success []) 0
      = .ok (dedup_links (([] : List SearchItem).map toLink)) :=
  (search_dedup_amended 1 (fun _ => .success []) 0 [] (by omega) rfl).1

theorem filter_eq_length_le_one {α β : Type} [DecidableEq β] (f : α → β) (a : β) :
    ∀ l : List α, (l.map f).Nodup →
      (l.filter (fun x => decide (f x = a))).length ≤ 1 := by
  intro l
  induction l with
  | nil => intro _; simp
  | cons x t ih =>
    intro hnd
    rw [List.map_cons, List.nodup_cons] at hnd
    rw [List.filter_cons]
    by_cases hx : f x = a
    · rw [if_pos (by simp [hx])]
      have hft : t.filter (fun y => decide (f y = a)) = [] := by
        rw [List.filter_eq_nil_iff]
        intro y hy hya
        simp only [decide_eq_true_eq] at hya
        exact hnd.1 (List.mem_map.mpr ⟨y, hy, by rw [hya, hx]⟩)
      rw [hft]
      simp
    · rw [if_neg (by simp [hx])]
      exact ih hnd.2

/-- C10: every successful result of `search_alternative_sources` contains at
most one entry whose `url` is absent (`none`): all provider items lacking a
`url` field are collapsed into a single entry by the URL-keyed dedup. -/
theorem search_at_most_one_missing_url (limit : Nat)
    (attempts : Nat → AttemptOutcome) (r : Nat) (res : List Link)
    (h : search_alternative_sources limit attempts r = .ok res) :
    (res.filter (fun l => decide (l.url = none))).length ≤ 1 := by
  rcases search_ok_cases limit attempts (limit - r) r res (le_refl _) h with
    he | ⟨items, he⟩
  · rw [he]; simp
  · rw [he]
    apply filter_eq_length_le_one
    rw [dedup_links_map_url]
    exact firstKeys_nodup _

/-- C10 witness: the theorem applied at a concrete successful search. -/
theorem search_at_most_one_missing_url_witness :
    ((([] : List Link)).filter (fun l => decide (l.url = none))).length ≤ 1 :=
  search_at_most_one_missing_url 1 (fun _ => .success []) 0 []
    (by rw [search_eq]; simp [dedup_links, buildDict])

/-! ### Lemmas about the `/analyze` orchestrator -/

theorem analyze_obj (kvs : List (String × JValue)) (llm : SummarizeOutcome)
    (limit : Nat) (attempts : Nat → AttemptOutcome) (hne : kvs ≠ []) :
    analyze_content (some (.obj kvs)) llm limit attempts
      = match preprocess_dyn (pyDictGet kvs "content" (.str "")) with
        | .error _ => (⟨500, .err "An unexpected error occurred"⟩, 0)
        | .ok text =>
          if text.data.isEmpty then (⟨400, .err "No content provided"⟩, 0)
          else
            match summarize_text llm with
            | .error _ => (⟨500, .err "Failed to summarize content"⟩, 0)
            | .ok summary =>
              (⟨200, .payload summary
                  (match pyDictGet kvs "metadata" (.obj []) with
                   | .obj entries => entries
                   | _ => [])
                  (match search_alternative_sources limit attempts 0 with
                   | .ok res => if res.isEmpty then [] else res
                   | .error _ => [])⟩,
                search_requests limit attempts 0) := by
  have htr : (!truthy (.obj kvs)) = false := by
    simp [truthy, List.isEmpty_iff, hne]
  unfold analyze_content analyze_inner
  simp only [htr, Bool.false_eq_true, if_false, jget]
  cases hpd : preprocess_dyn (pyDictGet kvs "content" (.str "")) with
  | error e => rfl
  | ok text =>
    by_cases he : text.data.isEmpty = true
    · simp only [he, eq_self_iff_true, if_true]
    · simp only [Bool.not_eq_true] at he
      simp only [he, Bool.false_eq_true, if_false]
      cases hs : summarize_text llm with
      | error e2 => rfl
      | ok summary => rfl

/-- C2 counterexample: `POST /analyze` with body `{}` is a valid JSON object
with no `content` field, yet the code's `if not data:` treats the falsy empty
dict as a missing body: the response is 400 with
`{"error": "Invalid or missing JSON body"}`, not `"No content provided"`. -/
theorem analyze_empty_object_counterexample :
    analyze_content (some (.obj [])) (.content "hello") 3 (fun _ => .transportFailure)
      = (⟨400, .err "Invalid or missing JSON body"⟩, 0) ∧
    ("Invalid or missing JSON body" : String) ≠ "No content provided" :=
  ⟨rfl, by decide⟩

/-- C2 amended: a POST to `/analyze` whose body is the valid JSON object `{}`
yields HTTP 400, but with body `{"error": "Invalid or missing JSON body"}`,
because the empty dict is falsy in Python and is caught by the missing-body
check before the content check. -/
theorem analyze_empty_object (llm : SummarizeOutcome) (limit : Nat)
    (attempts : Nat → AttemptOutcome) :
    analyze_content (some (.obj [])) llm limit attempts
      = (⟨400, .err "Invalid or missing JSON body"⟩, 0) := rfl

/-- C9: for a non-empty JSON object body whose `content` field is present but
not a string, the endpoint does not return a 400 validation error:
`preprocess_text` fails with an `AttributeError` caught only by the outermost
safety net, yielding HTTP 500 `{"error": "An unexpected error occurred"}`. -/
theorem analyze_non_string_content (kvs : List (String × JValue))
    (llm : SummarizeOutcome) (limit : Nat) (attempts : Nat → AttemptOutcome)
    (v : JValue) (hne : kvs ≠ [])
    (hv : pyDictGet kvs "content" (.str "") = v)
    (hnotstr : ∀ s, v ≠ .str s) :
    analyze_content (some (.obj kvs)) llm limit attempts
      = (⟨500, .err "An unexpected error occurred"⟩, 0) := by
  have hpd : preprocess_dyn v = .error .attributeError := by
    cases v with
    | str s => exact absurd rfl (hnotstr s)
    | null => rfl
    | bool b => rfl
    | num n => rfl
    | arr xs => rfl
    | obj o => rfl
  rw [analyze_obj kvs llm limit attempts hne, hv, hpd]

/-- C9 witness: the theorem applied at `{"content": 5}`. -/
theorem analyze_non_string_content_witness :
    analyze_content (some (.obj [("content", .num 5)])) (.content "y") 3
        (fun _ => .transportFailure)
      = (⟨500, .err "An unexpected error occurred"⟩, 0) :=
  analyze_non_string_content [("content", .num 5)] (.content "y") 3
    (fun _ => .transportFailure) (.num 5) (List.cons_ne_nil _ _) rfl nofun

/-- C6: for every validated request, if the summarizer raises (API failure or
empty model output), the orchestrator responds HTTP 500 with
`{"error": "Failed to summarize content"}` and issues zero outbound search
requests, for every search oracle — the Finder is never invoked. -/
theorem analyze_summarizer_failure (kvs : List (String × JValue)) (c : String)
    (llm : SummarizeOutcome) (e : SummarizationError)
    (hne : kvs ≠ [])
    (hc : pyDictGet kvs "content" (.str "") = .str c)
    (hcne : (preprocess_text c).data ≠ [])
    (hllm : summarize_text llm = .error e) :
    ∀ limit attempts, analyze_content (some (.obj kvs)) llm limit attempts
      = (⟨500, .err "Failed to summarize content"⟩, 0) := by
  intro limit attempts
  rw [analyze_obj kvs llm limit attempts hne, hc]
  simp only [preprocess_dyn]
  have he : (preprocess_text c).data.isEmpty = false := by
    simp [List.isEmpty_iff, hcne]
  simp only [he, Bool.false_eq_true, if_false]
  rw [hllm]

/-- C6 witness: the theorem applied at a failing LLM call. -/
theorem analyze_summarizer_failure_witness :
    analyze_content (some (.obj [("content", .str "x")])) .apiFailure 3
        (fun _ => .transportFailure)
      = (⟨500, .err "Failed to summarize content"⟩, 0) :=
  analyze_summarizer_failure [("content", .str "x")] "x" .apiFailure .apiError
    (List.cons_ne_nil _ _) rfl (by decide) rfl 3 (fun _ => .transportFailure)

/-- C4: with valid non-empty content and a successful summarization, if every
outbound search attempt fails (transport failure or an exception escaping the
Finder), the orchestrator still responds HTTP 200 with
`alternative_sources = []` and a non-empty summary. -/
theorem analyze_search_failure_degrades (kvs : List (String × JValue))
    (c s : String) (limit : Nat) (attempts : Nat → AttemptOutcome)
    (hne : kvs ≠ [])
    (hc : pyDictGet kvs "content" (.str "") = .str c)
    (hcne : (preprocess_text c).data ≠ [])
    (hs : (preprocess_text s).data ≠ [])
    (hfail : ∀ i, attempts i = .transportFailure ∨ attempts i = .parseError) :
    ∃ md, analyze_content (some (.obj kvs)) (.content s) limit attempts
        = (⟨200, .payload (preprocess_text s) md []⟩,
            search_requests limit attempts 0)
      ∧ (preprocess_text s).data ≠ [] := by
  refine ⟨(match pyDictGet kvs "metadata" (.obj []) with
    | .obj entries => entries | _ => []), ?_, hs⟩
  rw [analyze_obj kvs (.content s) limit attempts hne, hc]
  simp only [preprocess_dyn]
  have he : (preprocess_text c).data.isEmpty = false := by
    simp [List.isEmpty_iff, hcne]
  simp only [he, Bool.false_eq_true, if_false]
  have hsum : summarize_text (.content s) = .ok (preprocess_text s) := by
    rw [summarize_text_content,
      if_neg (by simp [List.isEmpty_iff]; exact hs : ¬ (stripChars s.data).isEmpty = true)]
    rfl
  rw [hsum]
  rcases search_all_fail limit attempts hfail (limit - 0) 0 (le_refl _) with hok | herr
  · rw [hok]
    rfl
  · rw [herr]

/-- C4 witness: the theorem applied at a concrete request with an
all-transport-failing search API. -/
theorem analyze_search_failure_degrades_witness :
    ∃ md, analyze_content (some (.obj [("content", .str "x")])) (.content "y") 3
        (fun _ => .transportFailure)
      = (⟨200, .payload (preprocess_text "y") md []⟩,
          search_requests 3 (fun _ => .transportFailure) 0)
      ∧ (preprocess_text "y").data ≠ [] :=
  analyze_search_failure_degrades [("content", .str "x")] "x" "y" 3
    (fun _ => .transportFailure) (List.cons_ne_nil _ _) rfl (by decide) (by decide)
    (fun _ => Or.inl rfl)

/-- C8: a request with valid content whose `metadata` field is present but not
a key/value mapping is never rejected for that reason: the successful response
carries `metadata = {}`; when `metadata` is a mapping it is passed through
unchanged. -/
theorem analyze_metadata_sanitation (kvs : List (String × JValue)) (c : String)
    (llm : SummarizeOutcome) (summary : String) (m : JValue)
    (limit : Nat) (attempts : Nat → AttemptOutcome)
    (hne : kvs ≠ [])
    (hc : pyDictGet kvs "content" (.str "") = .str c)
    (hcne : (preprocess_text c).data ≠ [])
    (hsum : summarize_text llm = .ok summary)
    (hm : pyDictGet kvs "metadata" (.obj []) = m) :
    ((∀ entries, m ≠ .obj entries) →
      ∃ alt, analyze_content (some (.obj kvs)) llm limit attempts
        = (⟨200, .payload summary [] alt⟩, search_requests limit attempts 0)) ∧
    (∀ entries, m = .obj entries →
      ∃ alt, analyze_content (some (.obj kvs)) llm limit attempts
        = (⟨200, .payload summary entries alt⟩,
            search_requests limit attempts 0)) := by
  have hred : analyze_content (some (.obj kvs)) llm limit attempts
      = (⟨200, .payload summary
            (match pyDictGet kvs "metadata" (.obj []) with
             | .obj entries => entries | _ => [])
            (match search_alternative_sources limit attempts 0 with
             | .ok res => if res.isEmpty then [] else res
             | .error _ => [])⟩, search_requests limit attempts 0) := by
    rw [analyze_obj kvs llm limit attempts hne, hc]
    simp only [preprocess_dyn]
    have he : (preprocess_text c).data.isEmpty = false := by
      simp [List.isEmpty_iff, hcne]
    simp only [he, Bool.false_eq_true, if_false]
    rw [hsum]
  constructor
  · intro hnm
    have hm0 : (match pyDictGet kvs "metadata" (.obj []) with
        | JValue.obj entries => entries
        | _ => ([] : List (String × JValue))) = [] := by
      rw [hm]
      cases m with
      | obj entries => exact absurd rfl (hnm entries)
      | null => rfl
      | bool b => rfl
      | num n => rfl
      | str s => rfl
      | arr xs => rfl
    exact ⟨_, by rw [hred, hm0]⟩
  · intro entries hme
    subst hme
    have hm1 : (match pyDictGet kvs "metadata" (.obj []) with
        | JValue.obj entries2 => entries2
        | _ => ([] : List (String × JValue))) = entries := by
      rw [hm]
    exact ⟨_, by rw [hred, hm1]⟩

/-- C8 witness: the theorem applied at a request whose `metadata` is a list. -/
theorem analyze_metadata_sanitation_witness :
    ∃ alt, analyze_content
        (some (.obj [("content", .str "x"), ("metadata", .arr [])]))
        (.content "y") 1 (fun _ => .transportFailure)
      = (⟨200, .payload (preprocess_text "y") [] alt⟩,
          search_requests 1 (fun _ => .transportFailure) 0) :=
  (analyze_metadata_sanitation [("content", .str "x"), ("metadata", .arr [])]
    "x" (.content "y") (preprocess_text "y") (.arr []) 1
    (fun _ => .transportFailure) (List.cons_ne_nil _ _) rfl (by decide) rfl
    rfl).1 nofun

end App
